import Mathlib

/-!
Verification of the table-properties dialog module
(`src/plugins/table/main/ts/ui/TableDialog.ts`).

The TypeScript module is shallowly embedded: DOM elements become an
inductive tree, JS objects used as string maps become association lists,
and the side-effecting procedures (`styleTDTH`, `applyDataToElement`,
`onSubmitTableForm`, `open`) become pure functions that return the data
they would have written to the DOM.  External collaborators that are not
part of the source file (the `Util` size helpers, `dom.serializeStyle`)
are modelled from the specification and marked as such.
-/

set_option autoImplicit false

/-- Association list with string keys, modelling a flat JavaScript object
(`{}` used as a map).  Keys are unique in every object built by the
embedded code. -/
abbrev AList' (α : Type) : Type := List (String × α)

/-- Write a key (JS property assignment): replace the value in place if
the key is present, otherwise append the new entry. -/
def alSet {α : Type} : AList' α → String → α → AList' α
  | [], k, v => [(k, v)]
  | kv :: tl, k, v => if kv.1 == k then (k, v) :: tl else kv :: alSet tl k v

/-- Read a key: `none` when the key is absent from the object. -/
def alLookup {α : Type} (o : AList' α) (k : String) : Option α :=
  (o.find? (fun kv => kv.1 == k)).map (fun kv => kv.2)

/-- `Merger.merge a b` from `@ephox/katamari`: every own key of `b` is
written over `a`, so `b` wins on key collision (including keys whose
value is `undefined`). -/
def alMerge {α : Type} (a b : AList' α) : AList' α :=
  b.foldl (fun acc kv => alSet acc kv.1 kv.2) a

/-- A JS object holding attribute values: a key may be present with value
`undefined` (modelled as `none`), which is distinct from the key being
absent. -/
abbrev JsObj : Type := AList' (Option String)

/-- A DOM inline-style map: keys are CSS property names. -/
abbrev StyleList : Type := AList' String

/-- A DOM element as seen by `styleTDTH` and the caption logic: a tag
name, the inline-style map, the `innerHTML` text, and the child elements.
`children` is `Option`al to model the code's `if (elm.children)` guard: a
branch whose children list is absent is not recursed into. -/
inductive Elm : Type where
  | mk (tagName : String) (styles : StyleList) (html : String)
       (children : Option (List Elm))

def Elm.tagName : Elm → String
  | .mk t _ _ _ => t

def Elm.styles : Elm → StyleList
  | .mk _ s _ _ => s

def Elm.html : Elm → String
  | .mk _ _ h _ => h

def Elm.children : Elm → Option (List Elm)
  | .mk _ _ _ c => c

/-- `elm.tagName === 'TD' || elm.tagName === 'TH'` (TableDialog.ts line 23). -/
def isCellTag (t : String) : Bool := t == "TD" || t == "TH"

/-- `dom.setStyle(elm, nameMap)`: each entry of the map is written into
the element's inline-style map (later writes of the same property
replace earlier ones). -/
def setStyles (s : StyleList) (nv : StyleList) : StyleList := alMerge s nv

mutual
/-- `styleTDTH` (TableDialog.ts lines 22-32): apply the style(s) to the
element if it is a `TD`/`TH` cell, otherwise recurse into every child in
order (when a children list is present). -/
def styleTDTH (nv : StyleList) : Elm → Elm
  | .mk t s h c =>
    if isCellTag t then .mk t (setStyles s nv) h c
    else .mk t s h (match c with
      | none => none
      | some cs => some (styleTDTHList nv cs))

def styleTDTHList (nv : StyleList) : List Elm → List Elm
  | [] => []
  | e :: es => styleTDTH nv e :: styleTDTHList nv es
end

/-- The `i`-th child element, `none` when the children list is absent or
too short. -/
def childAt (e : Elm) (i : Nat) : Option Elm :=
  match e.children with
  | none => none
  | some cs => cs[i]?

/-- The descendant reached from `e` by following the child indices in
`p`, `none` when the path leaves the tree (or crosses an absent children
list). -/
def nodeAt : Elm → List Nat → Option Elm
  | e, [] => some e
  | e, i :: p =>
    match childAt e i with
    | none => none
    | some c => nodeAt c p

/-- The inline-style map of the descendant at path `p`. -/
def stylesAt (e : Elm) (p : List Nat) : Option StyleList :=
  (nodeAt e p).map Elm.styles

/-- The descendant at path `p` exists and is a `TD`/`TH` cell. -/
def isCellPath (e : Elm) (p : List Nat) : Bool :=
  match nodeAt e p with
  | none => false
  | some n => isCellTag n.tagName

/-- The descendant at path `p` is a cell of the first cell layer: it is a
`TD`/`TH` and every node strictly above it on the path is not. -/
def firstCellPath : Elm → List Nat → Bool
  | e, [] => isCellTag e.tagName
  | e, i :: p =>
    !isCellTag e.tagName &&
      (match childAt e i with
       | none => false
       | some c => firstCellPath c p)

mutual
/-- `e` or one of its descendants (through present children lists) is a
`TD`/`TH` cell. -/
def anyCellElm : Elm → Bool
  | .mk t _ _ c =>
    isCellTag t ||
      (match c with
       | none => false
       | some cs => anyCellList cs)

def anyCellList : List Elm → Bool
  | [] => false
  | e :: es => anyCellElm e || anyCellList es
end

mutual
/-- No cell node of the tree lies strictly inside another cell node. -/
def noNestedCells : Elm → Bool
  | .mk t _ _ c =>
    match c with
    | none => true
    | some cs => if isCellTag t then !anyCellList cs else noNestedCellsList cs

def noNestedCellsList : List Elm → Bool
  | [] => true
  | e :: es => noNestedCells e && noNestedCellsList es
end

/-- Modelled from the spec: `Util.addSizeSuffix` (the size-normalisation
helper from `../alien/Util`, not part of the source file) appends a CSS
length unit (`px`) to a bare numeric size; unitless non-numeric or empty
values pass through unchanged. -/
def addSizeSuffix (s : String) : String :=
  if !s.toList.isEmpty && s.toList.all Char.isDigit then s ++ "px" else s

/-- Modelled from the spec: `Util.removePxSuffix` (from `../alien/Util`,
not part of the source file) strips a pixel unit suffix from a size
string. -/
def removePxSuffix (s : String) : String :=
  match s.toList.reverse with
  | 'x' :: 'p' :: rest => String.mk rest.reverse
  | _ => s

/-- Modelled from the spec: `dom.serializeStyle` (host DOM collaborator)
serialises a style map into the CSS text placed in a `style` attribute.
The claims only depend on which map is serialised, not on the exact
text. -/
def serializeStyle (m : JsObj) : String :=
  m.foldl
    (fun acc kv =>
      match kv.2 with
      | none => acc
      | some v => acc ++ kv.1 ++ ": " ++ v ++ "; ")
    ""

/-- The dialog's `TableData` form record.  All fields are strings except
`class`, which can be deleted by the submit handler (`delete data.class`)
and is therefore an `Option`; `none` models the JS value `undefined`.
The field is named `className` because `class` is reserved in Lean. -/
structure TableData where
  className : Option String
  width : String
  height : String
  cellspacing : String
  cellpadding : String
  border : String
  caption : String
  align : String
  cols : String
  rows : String
  borderstyle : String
  bordercolor : String
  backgroundcolor : String
deriving Repr, DecidableEq

/-- The host editor as consumed by this module: the settings accessors
used by `applyDataToElement` and `open` (all external collaborators,
treated as read-only editor-scoped configuration). -/
structure Editor where
  shouldStyleWithCss : Bool
  hasAdvancedTableTab : Bool
  defaultStyles : JsObj
  defaultAttributes : JsObj
  tableClassList : List String
deriving Repr

/-- The table element being edited, as consumed by `applyDataToElement`
and the submit handler: its current `width` attribute
(`dom.getAttrib(tableElm, 'width')` returns `""` when absent) and its
child elements. -/
structure DomTable where
  widthAttr : String
  children : Option (List Elm)

/-- Everything `applyDataToElement` writes to the DOM: the computed
attribute map `attrs` and style map `styles`, the maps actually applied
after merging host defaults underneath (`dom.setAttribs(tableElm,
Merger.merge(getDefaultAttributes(editor), attrs))` and
`dom.serializeStyle(Merger.merge(getDefaultStyles(editor), styles))`),
and the table's children after the `styleTDTH` propagation loop. -/
structure ApplyResult where
  attrs : JsObj
  styles : JsObj
  appliedAttrs : JsObj
  appliedStyles : JsObj
  children : Option (List Elm)

/-- `applyDataToElement` (TableDialog.ts lines 34-82), embedded as a pure
function from the editor configuration, the table element and the form
data to the data written to the DOM. -/
def applyDataToElement (editor : Editor) (tableElm : DomTable)
    (data : TableData) : ApplyResult :=
  -- attrs.class = data.class; styles.height = Util.addSizeSuffix(data.height);
  let attrs1 : JsObj := alSet [] "class" data.className
  let styles1 : JsObj := alSet [] "height" (some (addSizeSuffix data.height))
  -- if (dom.getAttrib(tableElm, 'width') && !shouldStyleWithCss(editor))
  let widthAttrCond : Bool := (tableElm.widthAttr != "") && !editor.shouldStyleWithCss
  let attrs2 :=
    if widthAttrCond then alSet attrs1 "width" (some (removePxSuffix data.width))
    else attrs1
  let styles2 :=
    if widthAttrCond then styles1
    else alSet styles1 "width" (some (addSizeSuffix data.width))
  -- if (shouldStyleWithCss(editor)) { styles... } else { attrs... }
  let styles3 :=
    if editor.shouldStyleWithCss then
      alSet (alSet styles2 "border-width" (some (addSizeSuffix data.border)))
        "border-spacing" (some (addSizeSuffix data.cellspacing))
    else styles2
  let attrs3 :=
    if editor.shouldStyleWithCss then attrs2
    else
      alSet (alSet (alSet attrs2 "border" (some data.border))
          "cellpadding" (some data.cellpadding))
        "cellspacing" (some data.cellspacing)
  -- if (shouldStyleWithCss(editor) && tableElm.children) { for (...) styleTDTH(...) }
  let children' :=
    if editor.shouldStyleWithCss then
      match tableElm.children with
      | none => none
      | some cs =>
        some (cs.map (fun c =>
          let c1 := styleTDTH
            [("border-width", addSizeSuffix data.border),
             ("padding", addSizeSuffix data.cellpadding)] c
          if editor.hasAdvancedTableTab then
            styleTDTH [("border-color", data.bordercolor)] c1
          else c1))
    else tableElm.children
  -- if (hasAdvancedTableTab(editor)) { styles... }
  let styles4 :=
    if editor.hasAdvancedTableTab then
      alSet (alSet (alSet styles3 "background-color" (some data.backgroundcolor))
          "border-color" (some data.bordercolor))
        "border-style" (some data.borderstyle)
    else styles3
  -- attrs.style = dom.serializeStyle(Merger.merge(getDefaultStyles(editor), styles));
  let mergedStyles := alMerge editor.defaultStyles styles4
  let attrs4 := alSet attrs3 "style" (some (serializeStyle mergedStyles))
  -- dom.setAttribs(tableElm, Merger.merge(getDefaultAttributes(editor), attrs));
  { attrs := attrs4
    styles := styles4
    appliedAttrs := alMerge editor.defaultAttributes attrs4
    appliedStyles := mergedStyles
    children := children' }

mutual
/-- The subtree rooted at `e` contains a `caption` element (so
`dom.select('caption', tableElm)` applied to a forest containing `e`
finds a match inside `e`). -/
def elmHasCaption : Elm → Bool
  | .mk t _ _ c =>
    t == "CAPTION" ||
      (match c with
       | none => false
       | some cs => listHasCaption cs)

def listHasCaption : List Elm → Bool
  | [] => false
  | e :: es => elmHasCaption e || listHasCaption es
end

mutual
/-- Remove the first `caption` element in document (pre-)order from a
forest: `dom.remove(dom.select('caption', tableElm)[0])`. -/
def rmCapList : List Elm → List Elm
  | [] => []
  | e :: es =>
    if e.tagName == "CAPTION" then es
    else if elmHasCaption e then rmCapInside e :: es
    else e :: rmCapList es

def rmCapInside : Elm → Elm
  | .mk t s h c =>
    .mk t s h (match c with
      | none => none
      | some cs => some (rmCapList cs))
end

/-- `captionElm.innerHTML = !Env.ie ? '<br data-mce-bogus="1"/>' : ' '`
(TableDialog.ts line 115): the placeholder content of a freshly created
caption, branching on the browser environment. -/
def captionPlaceholder (ie : Bool) : String :=
  if ie then "\u00A0" else "<br data-mce-bogus=\"1\"/>"

/-- The caption element created by `dom.create('caption')` with its
placeholder content. -/
def newCaption (ie : Bool) : Elm :=
  Elm.mk "CAPTION" [] (captionPlaceholder ie) none

/-- The caption toggle of the submit handler (TableDialog.ts lines
107-117): `captionElm = dom.select('caption', tableElm)[0]`; remove it
when present and the `caption` field is not `"checked"`; create and
insert a placeholder caption as first child when absent and the field is
`"checked"`. -/
def captionToggle (children : Option (List Elm)) (caption : String)
    (ie : Bool) : Option (List Elm) :=
  match children with
  | none => if caption == "checked" then some [newCaption ie] else none
  | some cs =>
    if listHasCaption cs then
      if caption != "checked" then some (rmCapList cs) else some cs
    else
      if caption == "checked" then some (newCaption ie :: cs) else some cs

/-- Everything the submit handler does: the normalised form data, whether
a fresh table was inserted (`InsertTable.insert`, an external
collaborator) and with which `cols`/`rows` tokens, the result of
`applyDataToElement`, the table's children after the caption toggle, and
the alignment action (`none` models `Styles.unApplyAlign`). -/
structure SubmitResult where
  normData : TableData
  inserted : Bool
  insertCols : String
  insertRows : String
  applied : ApplyResult
  finalChildren : Option (List Elm)
  alignApplied : Option String

/-- `onSubmitTableForm` (TableDialog.ts lines 84-128), embedded as a pure
function.  `tableElm` is the element the handler was bound with (possibly
`undefined`), `freshTable` stands for the element returned by
`InsertTable.insert`, and `ie` is `Env.ie`. -/
def onSubmitTableForm (editor : Editor) (tableElm : Option DomTable)
    (freshTable : DomTable) (ie : Bool) (data0 : TableData) : SubmitResult :=
  -- if (data.class === '') { delete data.class; }
  let data :=
    if data0.className = some "" then { data0 with className := none }
    else data0
  -- if (!tableElm) { tableElm = InsertTable.insert(editor, cols, rows); }
  let inserted := tableElm.isNone
  let insertCols := if data.cols = "" then "1" else data.cols
  let insertRows := if data.rows = "" then "1" else data.rows
  let tbl := tableElm.getD freshTable
  let applied := applyDataToElement editor tbl data
  let finalChildren := captionToggle applied.children data.caption ie
  { normData := data
    inserted := inserted
    insertCols := insertCols
    insertRows := insertRows
    applied := applied
    finalChildren := finalChildren
    alignApplied := if data.align = "" then none else some data.align }

/-- JS whitespace as matched by the regex class used on line 169. -/
def wsChar (c : Char) : Bool :=
  c == ' ' || c == '\t' || c == '\n' || c == '\r' ||
    c == Char.ofNat 11 || c == Char.ofNat 12

/-- Match a literal token at the head of a character list, returning the
remainder on success. -/
def matchTok : List Char → List Char → Option (List Char)
  | [], rest => some rest
  | _ :: _, [] => none
  | t :: ts, c :: cs => if c == t then matchTok ts cs else none

def mceItemTableTok : List Char := "mce-item-table".toList

/-- One global pass of the replacement, fuelled by the input length (each
step consumes at least one character, so the fuel never runs out on the
inputs `stripMceItemTable` supplies). -/
def stripMceAux : Nat → List Char → List Char
  | 0, l => l
  | _ + 1, [] => []
  | fuel + 1, l =>
    let ws := l.takeWhile wsChar
    let rest := l.dropWhile wsChar
    match matchTok mceItemTableTok rest with
    | some after => stripMceAux fuel (after.dropWhile wsChar)
    | none =>
      match rest with
      | [] => ws
      | c :: cs => ws ++ c :: stripMceAux fuel cs

/-- `data.class.replace(/\s*mce\-item\-table\s*/g, '')` (TableDialog.ts
line 169): remove every occurrence of the marker class together with the
whitespace around it, scanning left to right. -/
def stripMceItemTable (s : String) : String :=
  String.mk (stripMceAux (s.toList.length + 1) s.toList)

/-- The observable outcome of `open`: the `initialData` handed to the
dialog, the table element the submit handler is bound with
(`Fun.curry(onSubmitTableForm, editor, tableElm)` captures the value of
`tableElm` at open time), and whether the `cols`/`rows` input fields are
part of the form (`!isNew ? [] : [...]`). -/
structure OpenResult where
  initialData : TableData
  boundTable : Option DomTable
  rowColFieldsIncluded : Bool

/-- `open` (TableDialog.ts lines 130-306) restricted to its data flow:
resolution of the initial form data and of the element bound to the
submit handler.  `settingsData` stands for
`Helpers.extractDataFromSettings(...)`, `selectionTable` for
`dom.getParent(editor.selection.getStart(), 'table')`, and
`tableElementData` for `Helpers.extractDataFromTableElement(...)` (all
external collaborators).  The declarative form-schema assembly is not
modelled beyond the `cols`/`rows` inclusion flag. -/
def applyClassStrip (hasClasses : Bool) (d : TableData) : TableData :=
  -- if (hasClasses) { if (data.class) { data.class = data.class.replace(...); } }
  if hasClasses then
    match d.className with
    | some c =>
      if c ≠ "" then { d with className := some (stripMceItemTable c) }
      else d
    | none => d
  else d

def openDialog (editor : Editor) (isNew : Option Bool)
    (settingsData : TableData) (selectionTable : Option DomTable)
    (tableElementData : TableData) : OpenResult :=
  let resolved : TableData × Option DomTable :=
    if isNew = some false then
      match selectionTable with
      | some t =>
        -- Case 2 - isNew == false && table parent
        (tableElementData, some t)
      | none =>
        -- Case 3 - isNew == false && non-table parent
        (if editor.hasAdvancedTableTab then
           { settingsData with
             borderstyle := "", bordercolor := "", backgroundcolor := "" }
         else settingsData, none)
    else
      -- the else branch of `if (isNew === false)`: reached for
      -- isNew === true and for isNew undefined alike
      (if editor.hasAdvancedTableTab then
         { settingsData with
           cols := "1", rows := "1",
           borderstyle := "", bordercolor := "", backgroundcolor := "" }
       else { settingsData with cols := "1", rows := "1" }, none)
  -- hasClasses = getTableClassList(editor).length > 0; strip marker class
  let hasClasses := !editor.tableClassList.isEmpty
  { initialData := applyClassStrip hasClasses resolved.1
    boundTable := resolved.2
    rowColFieldsIncluded := isNew = some true }

/-- Concrete form data used by the witnesses and counterexamples below. -/
def sampleData : TableData :=
  { className := some "cls", width := "200", height := "50",
    cellspacing := "2", cellpadding := "3", border := "5",
    caption := "checked", align := "left", cols := "", rows := "",
    borderstyle := "", bordercolor := "blue", backgroundcolor := "green" }

/-- A host configured to style with CSS, advanced tab disabled, with
non-trivial default attribute and style maps. -/
def sampleEditorCss : Editor :=
  { shouldStyleWithCss := true, hasAdvancedTableTab := false,
    defaultStyles := [("border-width", some "7px")],
    defaultAttributes := [("border", some "1"), ("class", some "defcls")],
    tableClassList := [] }

/-- A host configured to style with plain attributes (no CSS), advanced
tab disabled. -/
def sampleEditorAttr : Editor :=
  { shouldStyleWithCss := false, hasAdvancedTableTab := false,
    defaultStyles := [("border-width", some "7px"), ("width", some "111px")],
    defaultAttributes := [("border", some "1"), ("class", some "defcls")],
    tableClassList := [] }

/-- A table element that carries a `width` attribute. -/
def sampleTable : DomTable :=
  { widthAttr := "400",
    children := some [Elm.mk "TR" [] "" (some [Elm.mk "TD" [] "" none])] }

/-- A table element without a `width` attribute whose single child is a
bare cell. -/
def sampleTableTD : DomTable :=
  { widthAttr := "", children := some [Elm.mk "TD" [] "" none] }

/-- A table element with no direct `caption` child but a `caption`
descendant (a nested table's caption inside a cell). -/
def sampleTableNestedCaption : DomTable :=
  { widthAttr := "",
    children := some [Elm.mk "TR" [] ""
      (some [Elm.mk "TD" [] ""
        (some [Elm.mk "TABLE" [] ""
          (some [Elm.mk "CAPTION" [] "" none])])])] }

/-- Settings-derived defaults whose `cols`/`rows` differ from `"1"`. -/
def sampleSettings : TableData :=
  { sampleData with cols := "5", rows := "7" }

/-- Form data whose `class` field is the empty string. -/
def sampleDataEmptyClass : TableData :=
  { sampleData with className := some "" }

theorem alLookup_nil {α : Type} (k : String) :
    alLookup ([] : AList' α) k = none := rfl

theorem alLookup_set_self {α : Type} (o : AList' α) (k : String) (v : α) :
    alLookup (alSet o k v) k = some v := by
  induction o with
  | nil => simp [alSet, alLookup, List.find?]
  | cons hd tl ih =>
    by_cases h : hd.1 == k
    · simp [alSet, alLookup, h, List.find?]
    · rw [Bool.not_eq_true] at h
      simpa [alSet, alLookup, h, List.find?] using ih

theorem alLookup_set_ne {α : Type} (o : AList' α) (k k' : String) (v : α)
    (h : k ≠ k') : alLookup (alSet o k' v) k = alLookup o k := by
  have hk : ((k' : String) == k) = false := by
    simp only [beq_eq_false_iff_ne, ne_eq]
    exact fun hc => h hc.symm
  induction o with
  | nil => simp [alSet, alLookup, List.find?, hk]
  | cons hd tl ih =>
    by_cases hh : hd.1 == k'
    · have hdk : (hd.1 == k) = false := by
        simp only [beq_iff_eq] at hh
        simp only [beq_eq_false_iff_ne, ne_eq, hh]
        exact fun hc => h hc.symm
      simp [alSet, alLookup, hh, List.find?, hk, hdk]
    · rw [Bool.not_eq_true] at hh
      by_cases hdk : (hd.1 == k) = true
      · simp [alSet, alLookup, hh, List.find?, hdk]
      · rw [Bool.not_eq_true] at hdk
        simpa [alSet, alLookup, hh, List.find?, hdk] using ih

theorem alLookup_cons {α : Type} (k' k : String) (v : α) (tl : AList' α) :
    alLookup ((k', v) :: tl) k =
      if k' == k then some v else alLookup tl k := by
  by_cases h : (k' == k) = true
  · simp [alLookup, List.find?, h]
  · rw [Bool.not_eq_true] at h
    simp [alLookup, List.find?, h]

theorem alMerge_nil {α : Type} (a : AList' α) : alMerge a [] = a := rfl

theorem alMerge_cons {α : Type} (a : AList' α) (k : String) (v : α)
    (tl : AList' α) :
    alMerge a ((k, v) :: tl) = alMerge (alSet a k v) tl := rfl

theorem styleTDTH_mk (nv : StyleList) (t : String) (s : StyleList)
    (h : String) (c : Option (List Elm)) :
    styleTDTH nv (Elm.mk t s h c) =
      if isCellTag t then Elm.mk t (setStyles s nv) h c
      else Elm.mk t s h (match c with
        | none => none
        | some cs => some (styleTDTHList nv cs)) := by
  rw [styleTDTH.eq_def]

theorem styleTDTHList_nil (nv : StyleList) : styleTDTHList nv [] = [] := by
  rw [styleTDTHList.eq_def]

theorem styleTDTHList_cons (nv : StyleList) (e : Elm) (es : List Elm) :
    styleTDTHList nv (e :: es) = styleTDTH nv e :: styleTDTHList nv es := by
  rw [styleTDTHList.eq_def]

theorem styleTDTHList_eq_map (nv : StyleList) (cs : List Elm) :
    styleTDTHList nv cs = cs.map (styleTDTH nv) := by
  induction cs with
  | nil => simp [styleTDTHList_nil]
  | cons e es ih => simp [styleTDTHList_cons, ih]

theorem childAt_styleTDTH (nv : StyleList) (e : Elm) (i : Nat)
    (hcell : isCellTag e.tagName = false) :
    childAt (styleTDTH nv e) i = (childAt e i).map (styleTDTH nv) := by
  cases e with
  | mk t s h c =>
    simp only [Elm.tagName] at hcell
    cases c with
    | none => simp [styleTDTH_mk, hcell, childAt, Elm.children]
    | some cs =>
      simp [styleTDTH_mk, hcell, childAt, Elm.children, styleTDTHList_eq_map,
        List.getElem?_map]

/-- Path-indexed characterisation of `styleTDTH`: the styles written by
one call land exactly on the first layer of cell nodes reached from the
root; every other node's styles are untouched. -/
theorem stylesAt_styleTDTH (nv : StyleList) :
    ∀ (p : List Nat) (e : Elm),
      stylesAt (styleTDTH nv e) p =
        if firstCellPath e p then (stylesAt e p).map (fun s => setStyles s nv)
        else stylesAt e p := by
  intro p
  induction p with
  | nil =>
    intro e
    cases e with
    | mk t s h c =>
      simp only [stylesAt, nodeAt, styleTDTH_mk, firstCellPath, Elm.tagName]
      cases isCellTag t <;> simp [Elm.styles]
  | cons i p ih =>
    intro e
    by_cases hcell : isCellTag e.tagName = true
    · -- a cell: children are untouched, and no longer path is a first-cell path
      have hchild : childAt (styleTDTH nv e) i = childAt e i := by
        cases e with
        | mk t s h c =>
          simp only [Elm.tagName] at hcell
          simp [styleTDTH_mk, hcell, childAt, Elm.children]
      have hfirst : firstCellPath e (i :: p) = false := by
        simp [firstCellPath, hcell]
      rw [hfirst]
      simp [stylesAt, nodeAt, hchild]
    · rw [Bool.not_eq_true] at hcell
      have hchild := childAt_styleTDTH nv e i hcell
      cases hc : childAt e i with
      | none =>
        have hfirst : firstCellPath e (i :: p) = false := by
          simp [firstCellPath, hcell, hc]
        rw [hfirst]
        simp [stylesAt, nodeAt, hchild, hc]
      | some c =>
        have hfirst : firstCellPath e (i :: p) = firstCellPath c p := by
          simp [firstCellPath, hcell, hc]
        rw [hfirst]
        simpa [stylesAt, nodeAt, hchild, hc] using ih c

theorem anyCellElm_mk (t : String) (s : StyleList) (h : String)
    (c : Option (List Elm)) :
    anyCellElm (Elm.mk t s h c) =
      (isCellTag t ||
        (match c with
         | none => false
         | some cs => anyCellList cs)) := by
  rw [anyCellElm.eq_def]

theorem anyCellList_nil : anyCellList [] = false := by
  rw [anyCellList.eq_def]

theorem anyCellList_cons (e : Elm) (es : List Elm) :
    anyCellList (e :: es) = (anyCellElm e || anyCellList es) := by
  rw [anyCellList.eq_def]

theorem noNestedCells_mk (t : String) (s : StyleList) (h : String)
    (c : Option (List Elm)) :
    noNestedCells (Elm.mk t s h c) =
      (match c with
       | none => true
       | some cs =>
         if isCellTag t then !anyCellList cs else noNestedCellsList cs) := by
  rw [noNestedCells.eq_def]

theorem noNestedCellsList_nil : noNestedCellsList [] = true := by
  rw [noNestedCellsList.eq_def]

theorem noNestedCellsList_cons (e : Elm) (es : List Elm) :
    noNestedCellsList (e :: es) = (noNestedCells e && noNestedCellsList es) := by
  rw [noNestedCellsList.eq_def]

theorem isCellPath_nil (e : Elm) : isCellPath e [] = isCellTag e.tagName := by
  simp [isCellPath, nodeAt]

theorem isCellPath_cons (e : Elm) (i : Nat) (p : List Nat) :
    isCellPath e (i :: p) =
      (match childAt e i with
       | none => false
       | some c => isCellPath c p) := by
  cases hc : childAt e i <;> simp [isCellPath, nodeAt, hc]

theorem anyCellElm_of_getElem (cs : List Elm) (i : Nat) (c : Elm)
    (hg : cs[i]? = some c) (h : anyCellList cs = false) :
    anyCellElm c = false := by
  induction cs generalizing i with
  | nil => simp at hg
  | cons hd tl ih =>
    rw [anyCellList_cons] at h
    simp only [Bool.or_eq_false_iff] at h
    cases i with
    | zero =>
      simp only [List.getElem?_cons_zero, Option.some.injEq] at hg
      rw [← hg]
      exact h.1
    | succ j =>
      simp only [List.getElem?_cons_succ] at hg
      exact ih j hg h.2

theorem isCellPath_of_anyCellElm_false (p : List Nat) (e : Elm)
    (h : anyCellElm e = false) : isCellPath e p = false := by
  induction p generalizing e with
  | nil =>
    cases e with
    | mk t s hh c =>
      rw [anyCellElm_mk] at h
      simp only [Bool.or_eq_false_iff] at h
      simp [isCellPath_nil, Elm.tagName, h.1]
  | cons i p ih =>
    rw [isCellPath_cons]
    cases hc : childAt e i with
    | none => simp
    | some c =>
      cases e with
      | mk t s hh kids =>
        rw [anyCellElm_mk] at h
        simp only [Bool.or_eq_false_iff] at h
        cases kids with
        | none => simp [childAt, Elm.children] at hc
        | some cs =>
          simp only [childAt, Elm.children] at hc
          exact ih c (anyCellElm_of_getElem cs i c hc h.2)

theorem noNestedCells_of_getElem (cs : List Elm) (i : Nat) (c : Elm)
    (hg : cs[i]? = some c) (h : noNestedCellsList cs = true) :
    noNestedCells c = true := by
  induction cs generalizing i with
  | nil => simp at hg
  | cons hd tl ih =>
    rw [noNestedCellsList_cons] at h
    simp only [Bool.and_eq_true] at h
    cases i with
    | zero =>
      simp only [List.getElem?_cons_zero, Option.some.injEq] at hg
      rw [← hg]
      exact h.1
    | succ j =>
      simp only [List.getElem?_cons_succ] at hg
      exact ih j hg h.2

/-- When no cell is nested inside another cell, the first cell layer is
exactly the set of all cell nodes. -/
theorem firstCellPath_eq_isCellPath (p : List Nat) (e : Elm)
    (h : noNestedCells e = true) : firstCellPath e p = isCellPath e p := by
  induction p generalizing e with
  | nil => simp [firstCellPath, isCellPath_nil]
  | cons i p ih =>
    cases e with
    | mk t s hh kids =>
      rw [noNestedCells_mk] at h
      cases hcell : isCellTag t with
      | true =>
        have hfirst : firstCellPath (Elm.mk t s hh kids) (i :: p) = false := by
          simp [firstCellPath, Elm.tagName, hcell]
        rw [hfirst, isCellPath_cons]
        cases hc : childAt (Elm.mk t s hh kids) i with
        | none => simp
        | some c =>
          cases kids with
          | none => simp [childAt, Elm.children] at hc
          | some cs =>
            simp only [childAt, Elm.children] at hc
            simp only [hcell, if_true] at h
            rw [Bool.not_eq_true'] at h
            exact (isCellPath_of_anyCellElm_false p c
              (anyCellElm_of_getElem cs i c hc h)).symm
      | false =>
        have hfirst : firstCellPath (Elm.mk t s hh kids) (i :: p) =
            (match childAt (Elm.mk t s hh kids) i with
             | none => false
             | some c => firstCellPath c p) := by
          simp [firstCellPath, Elm.tagName, hcell]
        rw [hfirst, isCellPath_cons]
        cases hc : childAt (Elm.mk t s hh kids) i with
        | none => simp
        | some c =>
          cases kids with
          | none => simp [childAt, Elm.children] at hc
          | some cs =>
            simp only [childAt, Elm.children] at hc
            simp only [hcell, if_false, Bool.false_eq_true] at h
            exact ih c (noNestedCells_of_getElem cs i c hc h)

/-- C1: for every node passed to `styleTDTH`, a `TD`/`TH` node receives
the style(s) and its children are not recursed into; any other node is
left unstyled and every entry of its children list is processed in order
(recursion halts where the children list is absent).  Consequently the
styles land exactly on the first layer of cell nodes reached from the
root: a path's styles change precisely when it is a first-cell-layer
path. -/
theorem styleTDTH_first_cell_layer (nv : StyleList) (e : Elm) (p : List Nat) :
    (isCellTag e.tagName = true →
      styleTDTH nv e = Elm.mk e.tagName (setStyles e.styles nv) e.html e.children) ∧
    (isCellTag e.tagName = false →
      styleTDTH nv e =
        Elm.mk e.tagName e.styles e.html
          ((e.children).map (fun cs => cs.map (styleTDTH nv)))) ∧
    (stylesAt (styleTDTH nv e) p =
      if firstCellPath e p then (stylesAt e p).map (fun s => setStyles s nv)
      else stylesAt e p) := by
  refine ⟨?_, ?_, stylesAt_styleTDTH nv p e⟩
  · intro hcell
    cases e with
    | mk t s h c =>
      simp only [Elm.tagName] at hcell
      simp [styleTDTH_mk, hcell, Elm.tagName, Elm.styles, Elm.html, Elm.children]
  · intro hcell
    cases e with
    | mk t s h c =>
      simp only [Elm.tagName] at hcell
      cases c with
      | none =>
        simp [styleTDTH_mk, hcell, Elm.tagName, Elm.styles, Elm.html, Elm.children]
      | some cs =>
        simp [styleTDTH_mk, hcell, Elm.tagName, Elm.styles, Elm.html, Elm.children,
          styleTDTHList_eq_map]

theorem styleTDTH_first_cell_layer_witness :
    isCellTag (Elm.mk "TD" [] "" none).tagName = true ∧
    styleTDTH [("color", "red")] (Elm.mk "TD" [] "" none) =
      Elm.mk "TD" [("color", "red")] "" none := by
  constructor
  · rfl
  · exact (styleTDTH_first_cell_layer [("color", "red")]
      (Elm.mk "TD" [] "" none) []).1 rfl

/-- C2 counterexample: a tree whose cells all sit at depth ≥ 1 but where
one cell (an inner `TD` of a nested table) lies inside another cell.
`styleTDTH` stops at the outer cell, so the inner cell node receives no
style at all, contradicting the claim that every cell node is styled
regardless of nesting depth. -/
theorem styleTDTH_nested_cell_unstyled :
    isCellTag (Elm.mk "DIV" [] ""
      (some [Elm.mk "TD" [] ""
        (some [Elm.mk "TABLE" [] ""
          (some [Elm.mk "TD" [] "" none])])])).tagName = false ∧
    isCellPath (Elm.mk "DIV" [] ""
      (some [Elm.mk "TD" [] ""
        (some [Elm.mk "TABLE" [] ""
          (some [Elm.mk "TD" [] "" none])])])) [0, 0, 0] = true ∧
    stylesAt (styleTDTH [("color", "red")]
      (Elm.mk "DIV" [] ""
        (some [Elm.mk "TD" [] ""
          (some [Elm.mk "TABLE" [] ""
            (some [Elm.mk "TD" [] "" none])])]))) [0, 0, 0] = some [] := by
  refine ⟨rfl, rfl, ?_⟩
  simp [styleTDTH_mk, styleTDTHList_cons, styleTDTHList_nil, stylesAt, nodeAt,
    childAt, Elm.children, Elm.styles, isCellTag, setStyles, alMerge, alSet]

/-- C2 (amended): for any element whose cell nodes all sit at depth ≥ 1
and in which no cell node lies inside another cell node, `styleTDTH`
applies the given style(s) to every cell node of the tree and to no
non-cell node. -/
theorem styleTDTH_unnested_cells_styled (nv : StyleList) (e : Elm)
    (_hroot : isCellTag e.tagName = false)
    (hnn : noNestedCells e = true) (p : List Nat) :
    stylesAt (styleTDTH nv e) p =
      if isCellPath e p then (stylesAt e p).map (fun s => setStyles s nv)
      else stylesAt e p := by
  rw [stylesAt_styleTDTH, firstCellPath_eq_isCellPath p e hnn]

theorem styleTDTH_unnested_cells_styled_witness :
    isCellTag (Elm.mk "DIV" [] ""
      (some [Elm.mk "TD" [] "" none,
             Elm.mk "SPAN" [] "" (some [Elm.mk "TH" [] "" none])])).tagName
      = false ∧
    noNestedCells (Elm.mk "DIV" [] ""
      (some [Elm.mk "TD" [] "" none,
             Elm.mk "SPAN" [] "" (some [Elm.mk "TH" [] "" none])])) = true ∧
    stylesAt (styleTDTH [("color", "red")]
      (Elm.mk "DIV" [] ""
        (some [Elm.mk "TD" [] "" none,
               Elm.mk "SPAN" [] "" (some [Elm.mk "TH" [] "" none])]))) [1, 0]
      = some [("color", "red")] := by
  have hnn : noNestedCells (Elm.mk "DIV" [] ""
      (some [Elm.mk "TD" [] "" none,
             Elm.mk "SPAN" [] "" (some [Elm.mk "TH" [] "" none])])) = true := by
    simp [noNestedCells_mk, noNestedCellsList_cons, noNestedCellsList_nil,
      anyCellList_cons, anyCellList_nil, anyCellElm_mk, isCellTag]
  refine ⟨rfl, hnn, ?_⟩
  rw [styleTDTH_unnested_cells_styled [("color", "red")]
    (Elm.mk "DIV" [] ""
      (some [Elm.mk "TD" [] "" none,
             Elm.mk "SPAN" [] "" (some [Elm.mk "TH" [] "" none])]))
    rfl hnn [1, 0]]
  rfl

/-- C3: `applyDataToElement` with `shouldStyleWithCss = true` places none
of `border`, `cellpadding`, `cellspacing` in the attribute map it applies
(the computed attribute map has no such key, and the applied map's
entries for those keys are exactly the host-default entries, passed
through unmodified); with `shouldStyleWithCss = false` it likewise places
neither `border-width` nor `border-spacing` in the style map it
applies. -/
theorem applyDataToElement_css_mode_split (editor : Editor)
    (tableElm : DomTable) (data : TableData) :
    (editor.shouldStyleWithCss = true →
      alLookup (applyDataToElement editor tableElm data).attrs "border" = none ∧
      alLookup (applyDataToElement editor tableElm data).attrs "cellpadding" = none ∧
      alLookup (applyDataToElement editor tableElm data).attrs "cellspacing" = none ∧
      alLookup (applyDataToElement editor tableElm data).appliedAttrs "border"
        = alLookup editor.defaultAttributes "border" ∧
      alLookup (applyDataToElement editor tableElm data).appliedAttrs "cellpadding"
        = alLookup editor.defaultAttributes "cellpadding" ∧
      alLookup (applyDataToElement editor tableElm data).appliedAttrs "cellspacing"
        = alLookup editor.defaultAttributes "cellspacing") ∧
    (editor.shouldStyleWithCss = false →
      alLookup (applyDataToElement editor tableElm data).styles "border-width" = none ∧
      alLookup (applyDataToElement editor tableElm data).styles "border-spacing" = none ∧
      alLookup (applyDataToElement editor tableElm data).appliedStyles "border-width"
        = alLookup editor.defaultStyles "border-width" ∧
      alLookup (applyDataToElement editor tableElm data).appliedStyles "border-spacing"
        = alLookup editor.defaultStyles "border-spacing") := by
  constructor
  · intro hcss
    cases hadv : editor.hasAdvancedTableTab <;>
      simp [applyDataToElement, hcss, hadv, alSet, alMerge_nil, alMerge_cons,
        alLookup_cons, alLookup_nil, alLookup_set_self, alLookup_set_ne]
  · intro hcss
    cases hw : (tableElm.widthAttr != "") <;>
    cases hadv : editor.hasAdvancedTableTab <;>
      simp [applyDataToElement, hcss, hw, hadv, alSet, alMerge_nil, alMerge_cons,
        alLookup_cons, alLookup_nil, alLookup_set_self, alLookup_set_ne]

theorem applyDataToElement_css_mode_split_witness :
    sampleEditorCss.shouldStyleWithCss = true ∧
    alLookup (applyDataToElement sampleEditorCss sampleTable sampleData).attrs
      "border" = none ∧
    alLookup (applyDataToElement sampleEditorCss sampleTable sampleData).appliedAttrs
      "border" = some (some "1") := by
  have h := (applyDataToElement_css_mode_split sampleEditorCss sampleTable
    sampleData).1 rfl
  refine ⟨rfl, h.1, ?_⟩
  rw [h.2.2.2.1]
  rfl

/-- C4: when the element already carries a `width` attribute and the host
does not style with CSS, the form `width` is written as the `width`
attribute with any pixel suffix stripped and no `width` style is placed
(the applied style map keeps exactly the host-default `width` entry);
otherwise the `width` is written as a `width` style as a CSS size and no
`width` attribute is placed. -/
theorem applyDataToElement_width_rule (editor : Editor) (tableElm : DomTable)
    (data : TableData) :
    (tableElm.widthAttr ≠ "" → editor.shouldStyleWithCss = false →
      alLookup (applyDataToElement editor tableElm data).attrs "width"
        = some (some (removePxSuffix data.width)) ∧
      alLookup (applyDataToElement editor tableElm data).styles "width" = none ∧
      alLookup (applyDataToElement editor tableElm data).appliedAttrs "width"
        = some (some (removePxSuffix data.width)) ∧
      alLookup (applyDataToElement editor tableElm data).appliedStyles "width"
        = alLookup editor.defaultStyles "width") ∧
    ((tableElm.widthAttr = "" ∨ editor.shouldStyleWithCss = true) →
      alLookup (applyDataToElement editor tableElm data).styles "width"
        = some (some (addSizeSuffix data.width)) ∧
      alLookup (applyDataToElement editor tableElm data).attrs "width" = none) := by
  constructor
  · intro hwa hcss
    have hw : (tableElm.widthAttr != "") = true := by simp [bne_iff_ne, hwa]
    cases hadv : editor.hasAdvancedTableTab <;>
      simp [applyDataToElement, hcss, hw, hadv, alSet, alMerge_nil, alMerge_cons,
        alLookup_cons, alLookup_nil, alLookup_set_self, alLookup_set_ne]
  · intro hor
    rcases hor with hwa | hcss
    · have hw : (tableElm.widthAttr != "") = false := by simp [hwa]
      cases hcss : editor.shouldStyleWithCss <;>
      cases hadv : editor.hasAdvancedTableTab <;>
        simp [applyDataToElement, hcss, hw, hadv, alSet, alMerge_nil,
          alMerge_cons, alLookup_cons, alLookup_nil, alLookup_set_self,
          alLookup_set_ne]
    · cases hw : (tableElm.widthAttr != "") <;>
      cases hadv : editor.hasAdvancedTableTab <;>
        simp [applyDataToElement, hcss, hw, hadv, alSet, alMerge_nil,
          alMerge_cons, alLookup_cons, alLookup_nil, alLookup_set_self,
          alLookup_set_ne]

theorem applyDataToElement_width_rule_witness :
    sampleTable.widthAttr ≠ "" ∧
    sampleEditorAttr.shouldStyleWithCss = false ∧
    sampleData.width = "200" ∧
    alLookup (applyDataToElement sampleEditorAttr sampleTable sampleData).attrs
      "width" = some (some "200") ∧
    alLookup (applyDataToElement sampleEditorAttr sampleTable sampleData).styles
      "width" = none := by
  have h := (applyDataToElement_width_rule sampleEditorAttr sampleTable
    sampleData).1 (by decide) rfl
  refine ⟨by decide, rfl, rfl, ?_, h.2.1⟩
  rw [h.1]
  rfl

/-- C8 counterexample: with CSS styling on but the advanced tab disabled,
`applyDataToElement` still propagates `border-width` and `padding` onto
the child subtrees via `styleTDTH` — the bare `TD` child gains both
styles — contradicting the claim that no child-subtree propagation
occurs when the advanced tab is disabled. -/
theorem applyDataToElement_propagates_without_advanced :
    sampleEditorCss.shouldStyleWithCss = true ∧
    sampleEditorCss.hasAdvancedTableTab = false ∧
    sampleTableTD.children = some [Elm.mk "TD" [] "" none] ∧
    (applyDataToElement sampleEditorCss sampleTableTD sampleData).children =
      some [Elm.mk "TD" [("border-width", "5px"), ("padding", "3px")] "" none] := by
  have hb : addSizeSuffix "5" = "5px" := by decide
  have hp : addSizeSuffix "3" = "3px" := by decide
  refine ⟨rfl, rfl, rfl, ?_⟩
  simp [applyDataToElement, sampleEditorCss, sampleTableTD, sampleData,
    styleTDTH_mk, isCellTag, setStyles, alMerge, alSet, hb, hp]

/-- C8 (amended): the `styleTDTH` propagation onto the child subtrees
happens exactly when the host styles with CSS and the element has a
children list; in that case `border-width` and `padding` are propagated
regardless of the advanced tab, and `border-color` is additionally
propagated exactly when the advanced tab is enabled.  Without CSS
styling the children are untouched. -/
theorem applyDataToElement_propagation_condition (editor : Editor)
    (tableElm : DomTable) (data : TableData) :
    (editor.shouldStyleWithCss = false →
      (applyDataToElement editor tableElm data).children = tableElm.children) ∧
    (tableElm.children = none →
      (applyDataToElement editor tableElm data).children = none) ∧
    (editor.shouldStyleWithCss = true → ∀ cs, tableElm.children = some cs →
      (applyDataToElement editor tableElm data).children =
        some (cs.map (fun c =>
          let c1 := styleTDTH
            [("border-width", addSizeSuffix data.border),
             ("padding", addSizeSuffix data.cellpadding)] c
          if editor.hasAdvancedTableTab then
            styleTDTH [("border-color", data.bordercolor)] c1
          else c1))) := by
  refine ⟨?_, ?_, ?_⟩
  · intro hcss
    simp [applyDataToElement, hcss]
  · intro hch
    cases hcss : editor.shouldStyleWithCss <;>
      simp [applyDataToElement, hcss, hch]
  · intro hcss cs hch
    simp [applyDataToElement, hcss, hch]

theorem applyDataToElement_propagation_condition_witness :
    sampleEditorAttr.shouldStyleWithCss = false ∧
    (applyDataToElement sampleEditorAttr sampleTableTD sampleData).children =
      sampleTableTD.children :=
  ⟨rfl, (applyDataToElement_propagation_condition sampleEditorAttr sampleTableTD
    sampleData).1 rfl⟩

theorem applyDataToElement_class_lookup (editor : Editor)
    (tableElm : DomTable) (data : TableData) :
    alLookup (applyDataToElement editor tableElm data).attrs "class"
      = some data.className ∧
    alLookup (applyDataToElement editor tableElm data).appliedAttrs "class"
      = some data.className := by
  cases hcss : editor.shouldStyleWithCss <;>
  cases hw : (tableElm.widthAttr != "") <;>
    simp [applyDataToElement, hcss, hw, alSet, alMerge_nil, alMerge_cons,
      alLookup_cons, alLookup_nil, alLookup_set_self, alLookup_set_ne]

/-- C10: the attribute map computed by `applyDataToElement` always
contains a `class` key carrying the form data's `class` field — present
with value `undefined` when the field is absent — and therefore, after
the host default attributes are merged underneath, the applied map's
`class` entry is that (possibly `undefined`) value, shadowing any
host-default `class` entry. -/
theorem applyDataToElement_class_present (editor : Editor)
    (tableElm : DomTable) (data : TableData) :
    alLookup (applyDataToElement editor tableElm data).attrs "class"
      = some data.className ∧
    alLookup (applyDataToElement editor tableElm data).appliedAttrs "class"
      = some data.className :=
  applyDataToElement_class_lookup editor tableElm data

theorem elmHasCaption_mk (t : String) (s : StyleList) (h : String)
    (c : Option (List Elm)) :
    elmHasCaption (Elm.mk t s h c) =
      (t == "CAPTION" ||
        (match c with
         | none => false
         | some cs => listHasCaption cs)) := by
  rw [elmHasCaption.eq_def]

theorem listHasCaption_nil : listHasCaption [] = false := by
  rw [listHasCaption.eq_def]

theorem listHasCaption_cons (e : Elm) (es : List Elm) :
    listHasCaption (e :: es) = (elmHasCaption e || listHasCaption es) := by
  rw [listHasCaption.eq_def]

theorem rmCapList_nil : rmCapList [] = [] := by
  rw [rmCapList.eq_def]

theorem rmCapList_cons (e : Elm) (es : List Elm) :
    rmCapList (e :: es) =
      (if e.tagName == "CAPTION" then es
       else if elmHasCaption e then rmCapInside e :: es
       else e :: rmCapList es) := by
  rw [rmCapList.eq_def]

theorem rmCapInside_mk (t : String) (s : StyleList) (h : String)
    (c : Option (List Elm)) :
    rmCapInside (Elm.mk t s h c) =
      Elm.mk t s h (match c with
        | none => none
        | some cs => some (rmCapList cs)) := by
  rw [rmCapInside.eq_def]

/-- C6 counterexample: a table with no `caption` child but with a
`caption` descendant buried in a nested table inside a cell, submitted
with `caption = "checked"`.  The claim says a new caption element is
inserted as the table's first child; the code's
`dom.select('caption', tableElm)[0]` finds the nested descendant, so
nothing is inserted and the children are returned unchanged. -/
theorem onSubmitTableForm_nested_caption_blocks_insert :
    sampleData.caption = "checked" ∧
    (sampleTableNestedCaption.children.getD []).all
      (fun e => !(e.tagName == "CAPTION")) = true ∧
    listHasCaption (sampleTableNestedCaption.children.getD []) = true ∧
    (onSubmitTableForm sampleEditorAttr (some sampleTableNestedCaption)
        sampleTableTD false sampleData).finalChildren =
      sampleTableNestedCaption.children := by
  refine ⟨rfl, rfl, ?_, ?_⟩
  · simp [sampleTableNestedCaption, listHasCaption_cons, listHasCaption_nil,
      elmHasCaption_mk]
  · have hch : (onSubmitTableForm sampleEditorAttr (some sampleTableNestedCaption)
        sampleTableTD false sampleData).applied.children =
        sampleTableNestedCaption.children := by
      simp [onSubmitTableForm, applyDataToElement, sampleEditorAttr, sampleData]
    have hfin : (onSubmitTableForm sampleEditorAttr (some sampleTableNestedCaption)
        sampleTableTD false sampleData).finalChildren =
        captionToggle (onSubmitTableForm sampleEditorAttr
          (some sampleTableNestedCaption) sampleTableTD false
          sampleData).applied.children sampleData.caption false := by
      simp [onSubmitTableForm, sampleData]
    rw [hfin, hch]
    simp [sampleTableNestedCaption, captionToggle, listHasCaption_cons,
      listHasCaption_nil, elmHasCaption_mk, sampleData]

/-- C6 (amended): on submit, with the element's (post-apply) children
list present: if the subtree contains a `caption` descendant
(`dom.select` searches all descendants, not only direct children) and
the form's `caption` field is not `"checked"`, the first caption
descendant in document order is removed; if there is no caption
descendant and the field is `"checked"`, a new caption element carrying
a non-empty placeholder is inserted as the first child; in every other
case the children are unchanged. -/
theorem onSubmitTableForm_caption_toggle (editor : Editor)
    (tableElm : Option DomTable) (freshTable : DomTable) (ie : Bool)
    (data0 : TableData) (cs : List Elm)
    (hch : (onSubmitTableForm editor tableElm freshTable ie data0).applied.children
      = some cs) :
    (onSubmitTableForm editor tableElm freshTable ie data0).finalChildren =
      (if listHasCaption cs then
        (if data0.caption ≠ "checked" then some (rmCapList cs) else some cs)
       else
        (if data0.caption = "checked" then some (newCaption ie :: cs)
         else some cs)) ∧
    (newCaption ie).html = captionPlaceholder ie ∧
    captionPlaceholder ie ≠ "" := by
  refine ⟨?_, rfl, ?_⟩
  · have hfin : (onSubmitTableForm editor tableElm freshTable ie data0).finalChildren =
        captionToggle (onSubmitTableForm editor tableElm freshTable ie
          data0).applied.children data0.caption ie := by
      by_cases hcls : data0.className = some "" <;>
        simp [onSubmitTableForm, hcls]
    rw [hfin, hch]
    by_cases hc : data0.caption = "checked" <;>
    cases hlc : listHasCaption cs <;>
      simp [captionToggle, hlc, hc]
  · cases ie <;> simp [captionPlaceholder]

theorem onSubmitTableForm_caption_toggle_witness :
    (onSubmitTableForm sampleEditorAttr (some sampleTableTD) sampleTableTD
      false sampleData).applied.children = some [Elm.mk "TD" [] "" none] ∧
    (onSubmitTableForm sampleEditorAttr (some sampleTableTD) sampleTableTD
      false sampleData).finalChildren =
      some [newCaption false, Elm.mk "TD" [] "" none] := by
  have hch : (onSubmitTableForm sampleEditorAttr (some sampleTableTD)
      sampleTableTD false sampleData).applied.children =
      some [Elm.mk "TD" [] "" none] := by
    simp [onSubmitTableForm, applyDataToElement, sampleEditorAttr, sampleData,
      sampleTableTD]
  have h := onSubmitTableForm_caption_toggle sampleEditorAttr (some sampleTableTD)
    sampleTableTD false sampleData [Elm.mk "TD" [] "" none] hch
  refine ⟨hch, ?_⟩
  rw [h.1]
  simp [listHasCaption_cons, listHasCaption_nil, elmHasCaption_mk, sampleData]

/-- C5: when the submitted form data's `class` field is the empty string,
the submit handler deletes the field (it becomes absent), and the
attribute map finally applied to the table element carries `class` as an
`undefined`-valued key — never as an explicit empty-string value that
would override a host-configured default `class`. -/
theorem onSubmitTableForm_empty_class_dropped (editor : Editor)
    (tableElm : Option DomTable) (freshTable : DomTable) (ie : Bool)
    (data0 : TableData) (hcls : data0.className = some "") :
    (onSubmitTableForm editor tableElm freshTable ie data0).normData.className
      = none ∧
    alLookup (onSubmitTableForm editor tableElm freshTable ie
      data0).applied.attrs "class" = some none ∧
    alLookup (onSubmitTableForm editor tableElm freshTable ie
      data0).applied.appliedAttrs "class" = some none ∧
    alLookup (onSubmitTableForm editor tableElm freshTable ie
      data0).applied.appliedAttrs "class" ≠ some (some "") := by
  have hnorm : (onSubmitTableForm editor tableElm freshTable ie data0).normData
      = { data0 with className := none } := by
    simp [onSubmitTableForm, hcls]
  have happ : (onSubmitTableForm editor tableElm freshTable ie data0).applied
      = applyDataToElement editor (tableElm.getD freshTable)
          { data0 with className := none } := by
    simp [onSubmitTableForm, hcls]
  have h := applyDataToElement_class_lookup editor (tableElm.getD freshTable)
    { data0 with className := none }
  refine ⟨by rw [hnorm], ?_, ?_, ?_⟩
  · rw [happ]
    exact h.1
  · rw [happ]
    exact h.2
  · rw [happ, h.2]
    simp

theorem onSubmitTableForm_empty_class_dropped_witness :
    sampleDataEmptyClass.className = some "" ∧
    (onSubmitTableForm sampleEditorCss none sampleTableTD false
      sampleDataEmptyClass).normData.className = none ∧
    alLookup (onSubmitTableForm sampleEditorCss none sampleTableTD false
      sampleDataEmptyClass).applied.appliedAttrs "class" = some none := by
  have h := onSubmitTableForm_empty_class_dropped sampleEditorCss none
    sampleTableTD false sampleDataEmptyClass rfl
  exact ⟨rfl, h.1, h.2.2.1⟩

/-- C9: whenever `open` is called with `isNew` not strictly `false`
(`true` or unset), the submit handler is bound with no table element —
even when the current selection lies inside an existing table — so
submitting always routes through the insertion collaborator and never
edits an existing table in place. -/
theorem openDialog_nonfalse_binds_no_table (editor : Editor)
    (isNew : Option Bool) (settingsData : TableData)
    (selectionTable : Option DomTable) (tableElementData : TableData)
    (freshTable : DomTable) (ie : Bool) (data : TableData)
    (h : isNew ≠ some false) :
    (openDialog editor isNew settingsData selectionTable
      tableElementData).boundTable = none ∧
    (onSubmitTableForm editor
      (openDialog editor isNew settingsData selectionTable
        tableElementData).boundTable
      freshTable ie data).inserted = true := by
  have hb : (openDialog editor isNew settingsData selectionTable
      tableElementData).boundTable = none := by
    simp [openDialog, h]
  refine ⟨hb, ?_⟩
  rw [hb]
  by_cases hcls : data.className = some "" <;>
    simp [onSubmitTableForm, hcls]

theorem openDialog_nonfalse_binds_no_table_witness :
    (none : Option Bool) ≠ some false ∧
    (openDialog sampleEditorCss none sampleSettings (some sampleTable)
      sampleData).boundTable = none ∧
    (onSubmitTableForm sampleEditorCss
      (openDialog sampleEditorCss none sampleSettings (some sampleTable)
        sampleData).boundTable
      sampleTableTD false sampleData).inserted = true := by
  have h := openDialog_nonfalse_binds_no_table sampleEditorCss none
    sampleSettings (some sampleTable) sampleData sampleTableTD false sampleData
    (by simp)
  exact ⟨by simp, h.1, h.2⟩

theorem applyClassStrip_preserves (b : Bool) (d : TableData) :
    (applyClassStrip b d).cols = d.cols ∧
    (applyClassStrip b d).rows = d.rows ∧
    (applyClassStrip b d).width = d.width ∧
    (applyClassStrip b d).height = d.height ∧
    (applyClassStrip b d).cellspacing = d.cellspacing ∧
    (applyClassStrip b d).cellpadding = d.cellpadding ∧
    (applyClassStrip b d).border = d.border ∧
    (applyClassStrip b d).caption = d.caption ∧
    (applyClassStrip b d).align = d.align ∧
    (applyClassStrip b d).borderstyle = d.borderstyle ∧
    (applyClassStrip b d).bordercolor = d.bordercolor ∧
    (applyClassStrip b d).backgroundcolor = d.backgroundcolor := by
  cases b with
  | false => simp [applyClassStrip]
  | true =>
    cases hcn : d.className with
    | none => simp [applyClassStrip, hcn]
    | some c =>
      by_cases hc : c ≠ "" <;> simp [applyClassStrip, hcn, hc]

/-- C7 counterexample: calling `open` with `isNew` unset (neither `true`
nor `false`) still sets `cols`/`rows` to `"1"`, because the code's `else`
branch of `if (isNew === false)` catches `undefined` as well as `true`;
the claim says unset `isNew` leaves the settings-derived values (here
`"5"`). -/
theorem openDialog_unset_isNew_overwrites_cols :
    sampleSettings.cols = "5" ∧
    (openDialog sampleEditorCss none sampleSettings none
      sampleSettings).initialData.cols = "1" := by
  constructor
  · rfl
  · simp [openDialog, applyClassStrip, sampleEditorCss, sampleSettings,
      sampleData]

/-- C7 (amended): whenever `isNew` is not strictly `false` — for `true`
and for unset alike — the initial form data is the settings-derived
defaults with `cols` and `rows` set to `"1"`, and with `borderstyle`,
`bordercolor` and `backgroundcolor` blanked exactly when the advanced
tab is active; every other field (apart from the marker-class stripping
of `class`) keeps its settings-derived value. -/
theorem openDialog_nonfalse_initial_data (editor : Editor)
    (isNew : Option Bool) (settingsData : TableData)
    (selectionTable : Option DomTable) (tableElementData : TableData)
    (h : isNew ≠ some false) :
    (openDialog editor isNew settingsData selectionTable
      tableElementData).initialData.cols = "1" ∧
    (openDialog editor isNew settingsData selectionTable
      tableElementData).initialData.rows = "1" ∧
    (openDialog editor isNew settingsData selectionTable
      tableElementData).initialData.width = settingsData.width ∧
    (openDialog editor isNew settingsData selectionTable
      tableElementData).initialData.height = settingsData.height ∧
    (openDialog editor isNew settingsData selectionTable
      tableElementData).initialData.cellspacing = settingsData.cellspacing ∧
    (openDialog editor isNew settingsData selectionTable
      tableElementData).initialData.cellpadding = settingsData.cellpadding ∧
    (openDialog editor isNew settingsData selectionTable
      tableElementData).initialData.border = settingsData.border ∧
    (openDialog editor isNew settingsData selectionTable
      tableElementData).initialData.caption = settingsData.caption ∧
    (openDialog editor isNew settingsData selectionTable
      tableElementData).initialData.align = settingsData.align ∧
    (openDialog editor isNew settingsData selectionTable
      tableElementData).initialData.borderstyle =
      (if editor.hasAdvancedTableTab then "" else settingsData.borderstyle) ∧
    (openDialog editor isNew settingsData selectionTable
      tableElementData).initialData.bordercolor =
      (if editor.hasAdvancedTableTab then "" else settingsData.bordercolor) ∧
    (openDialog editor isNew settingsData selectionTable
      tableElementData).initialData.backgroundcolor =
      (if editor.hasAdvancedTableTab then "" else settingsData.backgroundcolor) := by
  have hres : (openDialog editor isNew settingsData selectionTable
      tableElementData).initialData =
      applyClassStrip (!editor.tableClassList.isEmpty)
        (if editor.hasAdvancedTableTab then
          { settingsData with
            cols := "1", rows := "1",
            borderstyle := "", bordercolor := "", backgroundcolor := "" }
         else { settingsData with cols := "1", rows := "1" }) := by
    simp [openDialog, h]
  rw [hres]
  have hp := applyClassStrip_preserves (!editor.tableClassList.isEmpty)
    (if editor.hasAdvancedTableTab then
      { settingsData with
        cols := "1", rows := "1",
        borderstyle := "", bordercolor := "", backgroundcolor := "" }
     else { settingsData with cols := "1", rows := "1" })
  cases hadv : editor.hasAdvancedTableTab <;> simp [hadv] at hp ⊢ <;>
    exact ⟨hp.1, hp.2.1, hp.2.2.1, hp.2.2.2.1, hp.2.2.2.2.1, hp.2.2.2.2.2.1,
      hp.2.2.2.2.2.2.1, hp.2.2.2.2.2.2.2.1, hp.2.2.2.2.2.2.2.2.1,
      hp.2.2.2.2.2.2.2.2.2.1, hp.2.2.2.2.2.2.2.2.2.2.1,
      hp.2.2.2.2.2.2.2.2.2.2.2⟩

theorem openDialog_nonfalse_initial_data_witness :
    (none : Option Bool) ≠ some false ∧
    (openDialog sampleEditorCss none sampleSettings none
      sampleSettings).initialData.cols = "1" ∧
    (openDialog sampleEditorCss none sampleSettings none
      sampleSettings).initialData.width = sampleSettings.width := by
  have h := openDialog_nonfalse_initial_data sampleEditorCss none sampleSettings
    none sampleSettings (by simp)
  exact ⟨by simp, h.1, h.2.2.1⟩
